import Mathlib

/-!
Shallow embedding of the ball-device coordination core
(mpf/devices/ball_device/ball_device.py) and proofs about it.

Devices are identified by natural numbers.  Python integers are modelled
as `Int` (or `Nat` where the source value is a count that never goes
negative before the operation under study), deques as `List`, exceptions
(`raise AssertionError`) as `Except.error`, and `None`-able references as
`Option`.  Recursive graph walks in the source have no cycle protection
and rely on Python's recursion limit; they are embedded with an explicit
`fuel` parameter where `fuel = 0` models the recursion bottoming out
with no result.
-/

namespace BallDevicePy

/-- Events posted on the machine event bus that matter for the claims.
Each constructor corresponds to one `balldevice_...` event of the source. -/
inductive Event where
  | ball_eject_success (balls : Nat) (target : Nat)
  | ball_eject_failed (target : Option Nat) (balls : Nat) (retry : Bool) (num_attempts : Nat)
  | ball_eject_permanent_failure
  | eject_broken_event
  | ball_lost (target : Nat)
  | balls_available
  deriving DecidableEq, Repr

/-- View of the `BallDevice` fields read by `get_additional_ball_capacity`:
`config['ball_capacity']`, `self.balls` (held balls), `len(self._incoming_balls)`
and `self.eject_in_progress_target` (a device reference or `None`). -/
structure CapacityView where
  ball_capacity : Nat
  balls : Nat
  incoming_balls : Nat
  eject_in_progress_target : Option Nat
  deriving DecidableEq, Repr

/-- Embedding of `BallDevice.get_real_additional_capacity` (ball_device.py
lines 1055-1061): returns `ball_capacity - balls` (the warning log when the
value is negative has no effect on the result). -/
def get_real_additional_capacity (d : CapacityView) : Int :=
  (d.ball_capacity : Int) - (d.balls : Int)

/-- Embedding of `BallDevice.get_additional_ball_capacity` (ball_device.py
lines 1063-1078): starts from the real additional capacity, subtracts the
number of incoming balls, subtracts one more when an eject is in progress,
and returns 0 instead of any negative value. -/
def get_additional_ball_capacity (d : CapacityView) : Int :=
  let capacity := get_real_additional_capacity d - (d.incoming_balls : Int)
  let capacity := if d.eject_in_progress_target.isSome then capacity - 1 else capacity
  if capacity < 0 then 0 else capacity

/-- The fields of `BallDevice` read and written by `eject_success` and the
state-clearing code below its `raise` statement. -/
structure EjectSuccessView where
  name : Nat
  eject_success_condition_is_set : Bool
  state_is_waiting_for_ball_mechanical : Bool
  eject_queue_length : Nat
  num_eject_attempts : Nat
  eject_in_progress_target : Option Nat
  deriving DecidableEq, Repr

/-- Embedding of `BallDevice.eject_success` (ball_device.py lines 1523-1572).
The very first statement of the body is `raise AssertionError("do not use")`,
so every invocation raises and none of the code below it can run. -/
def eject_success (_s : EjectSuccessView) :
    Except String (EjectSuccessView × List Event) :=
  Except.error "do not use"

/-- Embedding of the dead code of `BallDevice.eject_success` that sits below
the unconditional `raise AssertionError("do not use")` (ball_device.py lines
1528-1572), restricted to the plain (non-mechanical, post-confirm) path: it
sets the success condition, resets `num_eject_attempts` to 0, clears
`eject_in_progress_target` and posts `balldevice_(name)_ball_eject_success`
with `balls=1` and the saved eject target. -/
def eject_success_dead_code (s : EjectSuccessView) :
    EjectSuccessView × List Event :=
  if s.eject_success_condition_is_set then
    (s, [])
  else
    let eject_target := s.eject_in_progress_target
    let s := { s with
                eject_success_condition_is_set := true,
                num_eject_attempts := 0,
                eject_in_progress_target := none }
    (s, [Event.ball_eject_success 1 (eject_target.getD 0)])

/-- Static snapshot of the machine's device graph as the traversal methods
of `BallDevice` see it.  `eject_targets d` is the ordered
`config['eject_targets']` list of device `d`; `is_playfield d` its
`is_playfield()` flag; `tags d` its tag list; `source_devices d` its
`_source_devices` list (devices listing `d` among their eject targets);
`available_balls d` its `available_balls` counter. -/
structure Graph where
  eject_targets : Nat → List Nat
  is_playfield : Nat → Bool
  tags : Nat → List String
  source_devices : Nat → List Nat
  available_balls : Nat → Int

/-- Embedding of `BallDevice.find_path_to_target` (ball_device.py lines
1235-1253).  The source first checks whether the target is directly among
`eject_targets` (returning the two-element path), and only otherwise
recurses into each non-playfield eject target in declared order, prepending
`self` to the first path found; it returns `False` (here `none`) when no
branch yields a path.  The source recursion has no cycle protection; `fuel`
models Python's recursion limit, `fuel = 0` yielding no result. -/
def find_path_to_target (g : Graph) : Nat → Nat → Nat → Option (List Nat)
  | 0, _, _ => none
  | Nat.succ f, self, target =>
    if target ∈ g.eject_targets self then
      some [self, target]
    else
      match (g.eject_targets self).findSome?
          (fun d => if g.is_playfield d then none
                    else find_path_to_target g f d target) with
      | some p => some (self :: p)
      | none => none

/-- Modelled from the spec wording of claim C6 ("a depth-first search that
visits eject_targets left to right in declared order and returns the first
path found; playfield nodes are never traversed as intermediate hops"): a
plain DFS that examines each eject target in order, succeeding immediately
when that target is the goal and otherwise recursing (skipping playfields).
Used only to compare against the source's `find_path_to_target`. -/
def find_path_spec_dfs (g : Graph) : Nat → Nat → Nat → Option (List Nat)
  | 0, _, _ => none
  | Nat.succ f, self, target =>
    ((g.eject_targets self).findSome?
        (fun d =>
          if d = target then some [d]
          else if g.is_playfield d then none
          else find_path_spec_dfs g f d target)).map
      (fun p => self :: p)

/-- Embedding of `BallDevice.find_next_trough` (ball_device.py lines
1219-1233): returns `self` when tagged `trough`, otherwise recurses into
each non-playfield eject target in declared order and returns the first
trough found, or `False` (here `none`). -/
def find_next_trough (g : Graph) : Nat → Nat → Option Nat
  | 0, _ => none
  | Nat.succ f, self =>
    if "trough" ∈ g.tags self then some self
    else
      (g.eject_targets self).findSome?
        (fun d => if g.is_playfield d then none else find_next_trough g f d)

/-- Embedding of `BallDevice.find_one_available_ball` (ball_device.py lines
1080-1099): rejects the call when `self` is already on the path (cycle
prevention), prepends `self`, returns the path when `self` has an available
ball and the path is longer than one, and otherwise recurses through the
source devices, returning the first hit or `False` (here `none`). -/
def find_one_available_ball (g : Graph) : Nat → Nat → List Nat → Option (List Nat)
  | 0, _, _ => none
  | Nat.succ f, self, path =>
    if self ∈ path then none
    else
      let path := self :: path
      if 0 < g.available_balls self ∧ 1 < path.length then some path
      else
        (g.source_devices self).findSome?
          (fun s => find_one_available_ball g f s path)

/-- Per-device configuration consumed by `setup_eject_chain_next_hop`:
`config['mechanical_eject']` and `config['player_controlled_eject_event']`
per device.  Kept next to the graph as a second snapshot structure. -/
structure ChainConfig where
  mechanical_eject : Nat → Bool
  player_controlled_eject_event : Nat → Option String

/-- Entry of a device's `eject_queue` deque: (target, mechanical flag,
trigger event), mirroring the three-item tuples of the source. -/
abbrev EjectQueueEntry := Nat × Bool × Option String

/-- Mutable state touched by `setup_eject_chain` across all devices:
each device's `available_balls` counter and `eject_queue` deque.  (The
`OutgoingBall` pushed to `outgoing_balls_handler` lives in a class outside
this file's sources and is not part of the claims' state.) -/
structure ChainState where
  available_balls : Nat → Int
  eject_queue : Nat → List EjectQueueEntry

/-- Embedding of `BallDevice.setup_eject_chain_next_hop` (ball_device.py
lines 1183-1211) run on device `self`: pops the next hop from the path,
raises "Broken path" unless it is one of `self`'s eject targets, appends
one entry to `self`'s `eject_queue` (player-controlled entries carry the
mechanical flag and trigger event from config), and recurses on the next
hop while path elements remain.  The `_eject_request_condition.set()` call
only wakes the device task and is not modelled. -/
def setup_eject_chain_next_hop (g : Graph) (cc : ChainConfig) (self : Nat)
    (path : List Nat) (player_controlled : Bool) (st : ChainState) :
    Except String ChainState :=
  match path with
  | [] => Except.error "pop from an empty deque"
  | next_hop :: rest =>
    if next_hop ∈ g.eject_targets self then
      let entry : EjectQueueEntry :=
        if player_controlled ∧
            (cc.mechanical_eject self ∨
              (cc.player_controlled_eject_event self).isSome) then
          (next_hop, cc.mechanical_eject self,
            cc.player_controlled_eject_event self)
        else
          (next_hop, false, none)
      let st : ChainState :=
        { st with eject_queue := fun d =>
            if d = self then st.eject_queue d ++ [entry]
            else st.eject_queue d }
      if rest.isEmpty then Except.ok st
      else setup_eject_chain_next_hop g cc next_hop rest player_controlled st
    else Except.error "Broken path"

/-- Embedding of `BallDevice.setup_eject_chain` (ball_device.py lines
1159-1181) run on device `self`: raises when `self` has no available ball,
decrements `self.available_balls`, reads the final path element as the
target, pops the source off the path and checks it is `self`, runs
`setup_eject_chain_next_hop` on the remaining path, increments the
target's `available_balls`, and posts `balldevice_balls_available`. -/
def setup_eject_chain (g : Graph) (cc : ChainConfig) (self : Nat)
    (path : List Nat) (player_controlled : Bool) (st : ChainState) :
    Except String (ChainState × List Event) :=
  if st.available_balls self ≤ 0 then
    Except.error "Tried to setup an eject chain, but there are no available balls"
  else
    let st : ChainState :=
      { st with available_balls := fun d =>
          if d = self then st.available_balls d - 1
          else st.available_balls d }
    match path with
    | [] => Except.error "deque index out of range"
    | source :: rest =>
      let target := (source :: rest).getLast (List.cons_ne_nil source rest)
      if source ≠ self then
        Except.error "Path starts somewhere else!"
      else
        match setup_eject_chain_next_hop g cc self rest player_controlled st with
        | Except.error e => Except.error e
        | Except.ok st =>
          let st : ChainState :=
            { st with available_balls := fun d =>
                if d = target then st.available_balls d + 1
                else st.available_balls d }
          Except.ok (st, [Event.balls_available])

/-- The fields of `BallDevice` read and written by
`_handle_lost_incoming_ball` and `_cancel_eject`. -/
structure OutgoingView where
  available_balls : Int
  eject_queue : List EjectQueueEntry
  deriving Repr

/-- Embedding of `BallDevice._cancel_eject` (ball_device.py lines 748-766):
reads the target of the head of `eject_queue`, pops the head, and posts
`balldevice_(name)_ball_lost` with that target.  Indexing an empty deque
would raise; every caller guards against that. -/
def cancel_eject (s : OutgoingView) : Except String (OutgoingView × List Event) :=
  match s.eject_queue with
  | [] => Except.error "deque index out of range"
  | head :: rest =>
    Except.ok ({ s with eject_queue := rest }, [Event.ball_lost head.1])

/-- Embedding of `BallDevice._handle_lost_incoming_ball` (ball_device.py
lines 790-800), run after an incoming ball's deadline expired: when the
device still has an uncommitted available ball it absorbs the loss by
decrementing `available_balls`; otherwise the lost ball was needed by a
queued eject, so the queue must be non-empty (assertion) and that eject is
cancelled via `_cancel_eject`. -/
def handle_lost_incoming_ball (s : OutgoingView) :
    Except String (OutgoingView × List Event) :=
  if 0 < s.available_balls then
    Except.ok ({ s with available_balls := s.available_balls - 1 }, [])
  else if s.eject_queue.isEmpty then
    Except.error "Should have eject_queue"
  else
    cancel_eject s

/-- Embedding of the decision and event output of `BallDevice._failed_eject`
(ball_device.py lines 619-630) together with the posts it triggers:
`eject_failed()` posts `balldevice_(name)_ball_eject_failed` (with
`retry=True`, the default, and the current `num_eject_attempts`); then,
when `max_eject_attempts` is non-zero and `num_eject_attempts` has reached
it, `_eject_permanently_failed` posts the permanent-failure event and
`_eject_broken` enters the terminal state and posts the broken event
(second component `true`); otherwise the device re-enters `_ejecting`
(second component `false`). -/
def failed_eject_events (max_eject_attempts num_eject_attempts : Nat)
    (target : Option Nat) : List Event × Bool :=
  let evs := [Event.ball_eject_failed target 1 true num_eject_attempts]
  if max_eject_attempts ≠ 0 ∧ max_eject_attempts ≤ num_eject_attempts then
    (evs ++ [Event.ball_eject_permanent_failure, Event.eject_broken_event], true)
  else
    (evs, false)

/-- Harness for the retry loop of `_failed_eject` / `_ejecting`: drives the
source's cycle under an environment in which every eject attempt fails.
Each round models `_ejecting` incrementing `num_eject_attempts`
(ball_device.py line 565) followed by `_failed_eject` on the failed
attempt.  `fuel` bounds the number of failing attempts simulated; the
result is the accumulated event list and whether the device ended in the
terminal `eject_broken` state. -/
def eject_retry_loop (max_eject_attempts : Nat) : Nat → Nat → List Event × Bool
  | 0, _ => ([], false)
  | Nat.succ f, num_eject_attempts =>
    let attempts := num_eject_attempts + 1
    let step := failed_eject_events max_eject_attempts attempts none
    if step.2 then (step.1, true)
    else
      let rest := eject_retry_loop max_eject_attempts f attempts
      (step.1 ++ rest.1, rest.2)

/-- Test for the `balldevice_..._ball_eject_failed` events in a trace. -/
def isFailedEvent : Event → Bool
  | Event.ball_eject_failed _ _ _ _ => true
  | _ => false

/-- Per-device configuration consumed by `_validate_config`.
`eject_timeouts` and `ball_missing_timeouts` are the value lists of the
per-target dicts built by `_parse_config`; `confirm_eject_switch` records
whether that optional setting is present; `target_on_unexpected_ball` is
the resolved `_target_on_unexpected_ball` device. -/
structure DeviceConfig where
  eject_coil : Bool
  hold_coil : Bool
  mechanical_eject : Bool
  ball_switches : Nat
  exit_count_delay : Nat
  entrance_count_delay : Nat
  eject_timeouts : List Nat
  ball_missing_timeouts : List Nat
  confirm_eject_type : String
  confirm_eject_switch : Bool
  target_on_unexpected_ball : Nat

/-- Python `min` over a list of values; `none` models the `ValueError`
raised on an empty sequence. -/
def listMin : List Nat → Option Nat
  | [] => none
  | x :: xs => some (xs.foldl min x)

/-- Python `max` over a list of values; `none` models the `ValueError`
raised on an empty sequence. -/
def listMax : List Nat → Option Nat
  | [] => none
  | x :: xs => some (xs.foldl max x)

/-- Embedding of `BallDevice._validate_config` (ball_device.py lines
838-898) for device `self`: the checks in source order, each raising
(`Except.error`) with the source's condition.  The first check (under the
source comment "a device cannot have hold_coil and eject_coil") only
rejects a device with none of `eject_coil`, `hold_coil` and
`mechanical_eject` set. -/
def validate_config (g : Graph) (fuel : Nat) (self : Nat) (cfg : DeviceConfig) :
    Except String Unit :=
  if ¬cfg.eject_coil ∧ ¬cfg.hold_coil ∧ ¬cfg.mechanical_eject then
    Except.error "Device needs an eject_coil, a hold_coil, or mechanical_eject True"
  else if 1 < cfg.ball_switches ∧ cfg.mechanical_eject then
    Except.error "mechanical_eject can only be used with devices that have 1 ball switch"
  else
    match listMin cfg.eject_timeouts with
    | none => Except.error "min arg is an empty sequence"
    | some minEjectTimeout =>
      if minEjectTimeout < cfg.exit_count_delay then
        Except.error "all eject_timeouts have to be larger than exit_count_delay"
      else if minEjectTimeout < cfg.entrance_count_delay then
        Except.error "all eject_timeouts have to be larger than entrance_count_delay"
      else
        match listMax cfg.eject_timeouts, listMin cfg.ball_missing_timeouts with
        | some maxEjectTimeout, some minMissingTimeout =>
          if minMissingTimeout < maxEjectTimeout then
            Except.error "all ball_missing_timeouts have to be larger than all eject_timeouts"
          else
            match listMax cfg.ball_missing_timeouts with
            | some maxMissingTimeout =>
              if 60000 < maxMissingTimeout then
                Except.error "incoming ball timeout has to be larger than all ball_missing_timeouts"
              else if cfg.confirm_eject_type = "switch" ∧ ¬cfg.confirm_eject_switch then
                Except.error "when using confirm_eject_type switch you have to specify a confirm_eject_switch"
              else if "drain" ∈ g.tags self ∧ "trough" ∉ g.tags self ∧
                  (find_next_trough g fuel self).isNone then
                Except.error "No path to trough but device is tagged as drain"
              else if "drain" ∉ g.tags self ∧ "trough" ∉ g.tags self ∧
                  (find_path_to_target g fuel self cfg.target_on_unexpected_ball).isNone then
                Except.error "BallDevice has no path to target_on_unexpected_ball"
              else
                Except.ok ()
            | none => Except.error "max arg is an empty sequence"
        | _, _ => Except.error "min or max arg is an empty sequence"

/-- Reachability along `eject_targets` edges in which every traversed
device (each hop after the start) is not a playfield.  This is the
reachability notion realised by `find_next_trough`'s recursion. -/
inductive ReachesNP (g : Graph) : Nat → Nat → Prop
  | refl (d : Nat) : ReachesNP g d d
  | step (a b c : Nat) : b ∈ g.eject_targets a → g.is_playfield b = false →
      ReachesNP g b c → ReachesNP g a c

/-- Concrete graph for the path-priority analysis: device 0 ejects to
devices 1 and 2 (in that order), device 1 ejects to device 2.  No
playfields. -/
def gDirectEdge : Graph :=
  { eject_targets := fun d => if d = 0 then [1, 2] else if d = 1 then [2] else [],
    is_playfield := fun _ => false,
    tags := fun _ => [],
    source_devices := fun _ => [],
    available_balls := fun _ => 0 }

/-- Concrete graph for the trough-search analysis: device 0 ejects to
devices 1 and 2 (in that order), device 1 ejects to device 3; devices 2
and 3 are tagged trough.  No playfields. -/
def gTroughDfs : Graph :=
  { eject_targets := fun d => if d = 0 then [1, 2] else if d = 1 then [3] else [],
    is_playfield := fun _ => false,
    tags := fun d => if d = 2 ∨ d = 3 then ["trough"] else [],
    source_devices := fun _ => [],
    available_balls := fun _ => 0 }

/-- Concrete three-device chain 0 → 1 → 2 with one available ball at
device 0, matching spec scenario 6 (A → B → C). -/
def gChainDemo : Graph :=
  { eject_targets := fun d => if d = 0 then [1] else if d = 1 then [2] else [],
    is_playfield := fun _ => false,
    tags := fun _ => [],
    source_devices := fun d => if d = 1 then [0] else if d = 2 then [1] else [],
    available_balls := fun d => if d = 0 then 1 else 0 }

/-- Chain configuration for the demo machine: no mechanical ejects, no
player-controlled eject events. -/
def ccDemo : ChainConfig := ⟨fun _ => false, fun _ => none⟩

/-- Initial chain state for the demo machine: one available ball at
device 0, all eject queues empty. -/
def stDemo : ChainState := ⟨fun d => if d = 0 then 1 else 0, fun _ => []⟩

/-- Resulting state of `setup_eject_chain` on the demo chain (projection
used by the concrete witness; the call succeeds, so the error arm is
irrelevant). -/
def chainDemoResult : ChainState :=
  match setup_eject_chain gChainDemo ccDemo 0 [0, 1, 2] false stDemo with
  | Except.ok (s, _) => s
  | Except.error _ => stDemo

/-- Concrete single-device graph whose device 0 is tagged trough (which
makes both graph-reachability checks of `_validate_config` pass). -/
def gTroughSelf : Graph :=
  { eject_targets := fun _ => [],
    is_playfield := fun _ => false,
    tags := fun d => if d = 0 then ["trough"] else [],
    source_devices := fun _ => [],
    available_balls := fun _ => 0 }

/-- Concrete device configuration with BOTH an eject coil and a hold coil
configured, `mechanical_eject` off, and every other setting well-formed. -/
def cfgBothCoils : DeviceConfig :=
  { eject_coil := true, hold_coil := true, mechanical_eject := false,
    ball_switches := 1, exit_count_delay := 500, entrance_count_delay := 500,
    eject_timeouts := [10000], ball_missing_timeouts := [20000],
    confirm_eject_type := "target", confirm_eject_switch := false,
    target_on_unexpected_ball := 0 }

/-! Theorems. -/

/-- Claim C1: the spec says that when the configured confirmation source
fires and `eject_success` is invoked, the device posts
`balldevice_(name)_ball_eject_success`, resets `num_eject_attempts` to 0,
clears `eject_in_progress_target` and sets the eject-success condition.
In the source none of this can happen: the first statement of
`eject_success` is an unconditional `raise AssertionError("do not use")`,
so every invocation raises and the state-clearing and event-posting code
below it is unreachable. -/
theorem eject_success_always_raises :
    ∀ s : EjectSuccessView, eject_success s = Except.error "do not use" :=
  fun _ => rfl

/-- Claim C2 counterexample: on a device with `ball_capacity = 1` holding
2 balls, no incoming balls and no eject in progress, the claimed formula
`ball_capacity - held - incoming - 0` yields `-1`, but
`get_additional_ball_capacity` returns `0` (the source clamps negative
values to zero), so the claimed exact equality fails. -/
theorem get_additional_ball_capacity_formula_counterexample :
    get_additional_ball_capacity
        { ball_capacity := 1, balls := 2, incoming_balls := 0,
          eject_in_progress_target := none } ≠
      (1 : Int) - (2 : Int) - (0 : Int) - (0 : Int) := by
  decide

/-- Claim C2 (amended): for every device state,
`get_additional_ball_capacity` returns the MAXIMUM OF 0 AND
`ball_capacity − held − incoming − (1 if an eject is in progress else 0)`,
i.e. the claimed difference clamped below at zero. -/
theorem get_additional_ball_capacity_eq_clamped_formula :
    ∀ d : CapacityView,
      get_additional_ball_capacity d =
        max 0 ((d.ball_capacity : Int) - (d.balls : Int) -
          (d.incoming_balls : Int) -
          (if d.eject_in_progress_target.isSome then 1 else 0)) := by
  intro d
  simp only [get_additional_ball_capacity, get_real_additional_capacity]
  split_ifs <;> omega

/-- Claim C10: `get_additional_ball_capacity` is never negative, and
whenever `ball_capacity − held − incoming − (1 if an eject is in progress
else 0)` is negative it returns exactly 0. -/
theorem get_additional_ball_capacity_nonneg :
    ∀ d : CapacityView,
      0 ≤ get_additional_ball_capacity d ∧
      ((d.ball_capacity : Int) - (d.balls : Int) - (d.incoming_balls : Int) -
          (if d.eject_in_progress_target.isSome then 1 else 0) < 0 →
        get_additional_ball_capacity d = 0) := by
  intro d
  simp only [get_additional_ball_capacity, get_real_additional_capacity]
  split_ifs <;> constructor <;> omega

/-- Witness for claim C10 at the concrete overfull device: capacity 1,
2 held balls, nothing incoming, no eject in progress. -/
theorem get_additional_ball_capacity_nonneg_witness :
    ((1 : Nat) : Int) - ((2 : Nat) : Int) - ((0 : Nat) : Int) -
        (if (none : Option Nat).isSome then 1 else 0) < 0 ∧
      get_additional_ball_capacity
        { ball_capacity := 1, balls := 2, incoming_balls := 0,
          eject_in_progress_target := none } = 0 :=
  ⟨by decide,
    (get_additional_ball_capacity_nonneg
      { ball_capacity := 1, balls := 2, incoming_balls := 0,
        eject_in_progress_target := none }).2 (by decide)⟩

/-- Claim C3: the spec requires exactly one of `eject_coil`, `hold_coil`
and `mechanical_eject` and says a device with two of them is rejected as
fatal; the source comment above the check ("a device cannot have
hold_coil and eject_coil") states the same intent, but the check only
fires when NONE of the three is configured.  Evaluating the embedded
`_validate_config` on a device with both an eject coil and a hold coil
(and everything else well-formed) succeeds instead of raising. -/
theorem validate_config_accepts_double_coil :
    validate_config gTroughSelf 5 0 cfgBothCoils = Except.ok () := rfl

/-- Claim C8: when the earliest incoming ball expires,
`_handle_lost_incoming_ball` absorbs the loss by decrementing
`available_balls` when an uncommitted ball is available; otherwise a
queued eject depended on the lost ball and the device cancels it, popping
the head of its eject queue and posting `balldevice_(name)_ball_lost`
with the popped head's target. -/
theorem handle_lost_incoming_ball_spec :
    ∀ s : OutgoingView,
      (0 < s.available_balls →
        handle_lost_incoming_ball s =
          Except.ok ({ s with available_balls := s.available_balls - 1 }, [])) ∧
      (¬ 0 < s.available_balls →
        ∀ (head : EjectQueueEntry) (rest : List EjectQueueEntry),
          s.eject_queue = head :: rest →
          handle_lost_incoming_ball s =
            Except.ok ({ s with eject_queue := rest },
              [Event.ball_lost head.1])) := by
  intro s
  constructor
  · intro h
    unfold handle_lost_incoming_ball
    rw [if_pos h]
  · intro h head rest hq
    unfold handle_lost_incoming_ball cancel_eject
    rw [if_neg h, hq]
    simp

/-- Witness for claim C8: a device with no available balls and a queued
eject toward device 3 cancels that eject and posts `ball_lost` with
target 3. -/
theorem handle_lost_incoming_ball_witness :
    ¬ (0 : Int) < 0 ∧
      handle_lost_incoming_ball ⟨0, [(3, false, none)]⟩ =
        Except.ok (⟨0, []⟩, [Event.ball_lost 3]) :=
  ⟨by decide,
    (handle_lost_incoming_ball_spec ⟨0, [(3, false, none)]⟩).2 (by decide)
      (3, false, none) [] rfl⟩

/-- With `max_eject_attempts = 0` the retry loop never gives up: the
device never reaches `eject_broken` and never posts the
permanent-failure event, however many attempts fail. -/
theorem eject_retry_loop_zero_max :
    ∀ (f a : Nat),
      (eject_retry_loop 0 f a).2 = false ∧
      Event.ball_eject_permanent_failure ∉ (eject_retry_loop 0 f a).1 := by
  intro f
  induction f with
  | zero => intro a; simp [eject_retry_loop]
  | succ f ih =>
    intro a
    have h := ih (a + 1)
    simp only [eject_retry_loop, failed_eject_events, ne_eq,
      not_true_eq_false, false_and, if_false, List.singleton_append,
      List.cons_append, List.nil_append] at *
    refine ⟨h.1, ?_⟩
    intro hmem
    rcases List.mem_cons.mp hmem with hc | hc
    · exact absurd hc (by simp)
    · exact h.2 hc

/-- With `max_eject_attempts = N ≠ 0` and the attempt counter at `a < N`,
running the all-failures retry loop posts `min (N - a) fuel` eject-failed
events, ends in `eject_broken` exactly when the fuel allows `N - a` more
failing attempts, and posts the permanent-failure event whenever it ends
broken. -/
theorem eject_retry_loop_pos_max (N : Nat) (hN : N ≠ 0) :
    ∀ (f a : Nat), a < N →
      ((eject_retry_loop N f a).1.countP isFailedEvent = min (N - a) f) ∧
      ((eject_retry_loop N f a).2 = true ↔ N - a ≤ f) ∧
      ((eject_retry_loop N f a).2 = true →
        Event.ball_eject_permanent_failure ∈ (eject_retry_loop N f a).1) := by
  intro f
  induction f with
  | zero =>
    intro a ha
    refine ⟨by simp [eject_retry_loop], by simp [eject_retry_loop]; omega,
      by simp [eject_retry_loop]⟩
  | succ f ih =>
    intro a ha
    by_cases hb : N ≤ a + 1
    · have hstep : failed_eject_events N (a + 1) none =
          ([Event.ball_eject_failed none 1 true (a + 1),
            Event.ball_eject_permanent_failure, Event.eject_broken_event],
            true) := by
        simp [failed_eject_events, hN, hb]
      have hNa : N - a = 1 := by omega
      simp only [eject_retry_loop, hstep, if_true]
      refine ⟨?_, ?_, ?_⟩
      · simp [isFailedEvent, List.countP_cons, hNa]
      · simp [hNa]
      · intro _; simp
    · have hstep : failed_eject_events N (a + 1) none =
          ([Event.ball_eject_failed none 1 true (a + 1)], false) := by
        simp [failed_eject_events]
        omega
      have ha1 : a + 1 < N := by omega
      have h := ih (a + 1) ha1
      simp only [eject_retry_loop, hstep, Bool.false_eq_true, if_false,
        List.singleton_append]
      refine ⟨?_, ?_, ?_⟩
      · rw [List.countP_cons_of_pos _ _ (by simp [isFailedEvent]), h.1]
        omega
      · rw [h.2.1]; omega
      · intro hbroken
        exact List.mem_cons_of_mem _ (h.2.2 hbroken)

/-- Claim C4: `_failed_eject` posts `ball_eject_failed` first in every
case; it retries (rather than entering `eject_broken`) exactly when
`max_eject_attempts = 0` or the attempt count is below it; when it gives
up it posts exactly failed, permanent-failure and eject-broken, in that
order.  Consequently, driving the retry loop with `max_eject_attempts =
N > 0` from a fresh eject posts at most N `ball_eject_failed` events
before the permanent failure, and with `max_eject_attempts = 0` it
retries forever and never posts a permanent failure. -/
theorem failed_eject_bounded_retry :
    ∀ (N a fuel : Nat) (t : Option Nat),
      ((failed_eject_events N a t).1.head? =
        some (Event.ball_eject_failed t 1 true a)) ∧
      ((failed_eject_events N a t).2 = false ↔ (N = 0 ∨ a < N)) ∧
      ((failed_eject_events N a t).2 = true →
        (failed_eject_events N a t).1 =
          [Event.ball_eject_failed t 1 true a,
            Event.ball_eject_permanent_failure, Event.eject_broken_event]) ∧
      (0 < N →
        ((eject_retry_loop N fuel 0).1.countP isFailedEvent ≤ N ∧
          ((eject_retry_loop N fuel 0).2 = true →
            Event.ball_eject_permanent_failure ∈ (eject_retry_loop N fuel 0).1))) ∧
      ((eject_retry_loop 0 fuel 0).2 = false ∧
        Event.ball_eject_permanent_failure ∉ (eject_retry_loop 0 fuel 0).1) := by
  intro N a fuel t
  refine ⟨?_, ?_, ?_, ?_, eject_retry_loop_zero_max fuel 0⟩
  · unfold failed_eject_events
    split <;> rfl
  · unfold failed_eject_events
    split <;> rename_i hcond <;> simp only [Bool.false_eq_true] <;>
      constructor <;> intro h <;> first | omega | (exfalso; omega) | tauto
  · unfold failed_eject_events
    split <;> intro h
    · rfl
    · simp at h
  · intro hNpos
    have h := eject_retry_loop_pos_max N (by omega) fuel 0 (by omega)
    refine ⟨?_, h.2.2⟩
    rw [h.1]
    omega

/-- Witness for claim C4 with `max_eject_attempts = 2` and fuel for five
failing attempts: at most two eject-failed events are posted and the
permanent failure is posted once the device breaks. -/
theorem failed_eject_bounded_retry_witness :
    (eject_retry_loop 2 5 0).1.countP isFailedEvent ≤ 2 ∧
      Event.ball_eject_permanent_failure ∈ (eject_retry_loop 2 5 0).1 := by
  have h := (failed_eject_bounded_retry 2 1 5 none).2.2.2.1 (by decide)
  exact ⟨h.1, h.2 (by decide)⟩

/-- `setup_eject_chain_next_hop` never touches any device's
`available_balls`. -/
theorem setup_eject_chain_next_hop_available (g : Graph) (cc : ChainConfig) :
    ∀ (path : List Nat) (self : Nat) (pc : Bool) (st st' : ChainState),
      setup_eject_chain_next_hop g cc self path pc st = Except.ok st' →
      st'.available_balls = st.available_balls := by
  intro path
  induction path with
  | nil =>
    intro self pc st st' h
    simp [setup_eject_chain_next_hop] at h
  | cons next rest ih =>
    intro self pc st st' h
    simp only [setup_eject_chain_next_hop] at h
    split at h
    · split at h
      · cases h
        rfl
      · have h2 := ih next pc _ st' h
        rw [h2]
    · simp at h

/-- `setup_eject_chain_next_hop` run on `self` with the remaining `path`
appends exactly one entry to the eject queue of `self` and of every
element of `path` except the final target, and leaves every other
device's queue length unchanged: the new length at `d` is the old one
plus the multiplicity of `d` in `self :: path.dropLast`. -/
theorem setup_eject_chain_next_hop_queue_len (g : Graph) (cc : ChainConfig) :
    ∀ (path : List Nat) (self : Nat) (pc : Bool) (st st' : ChainState),
      setup_eject_chain_next_hop g cc self path pc st = Except.ok st' →
      ∀ d, (st'.eject_queue d).length =
        (st.eject_queue d).length + (self :: path.dropLast).count d := by
  intro path
  induction path with
  | nil =>
    intro self pc st st' h
    simp [setup_eject_chain_next_hop] at h
  | cons next rest ih =>
    intro self pc st st' h d
    simp only [setup_eject_chain_next_hop] at h
    split at h
    · split at h
      · rename_i hempty
        have hrest : rest = [] := by
          cases rest with
          | nil => rfl
          | cons r rs => simp at hempty
        cases h
        subst hrest
        simp only [List.dropLast_single, List.count_cons, List.count_nil]
        by_cases hd : d = self
        · subst hd
          simp
        · simp [hd, Ne.symm hd]
      · rename_i hempty
        have hrest : rest ≠ [] := by
          cases rest with
          | nil => simp at hempty
          | cons r rs => simp
        have h2 := ih next pc _ st' h d
        rw [h2]
        have hdl : (next :: rest).dropLast = next :: rest.dropLast := by
          cases rest with
          | nil => exact absurd rfl hrest
          | cons r rs => rfl
        rw [hdl]
        simp only [List.count_cons]
        by_cases hd : d = self <;> simp [hd, List.length_append] <;> omega
    · simp at h

/-- Claim C5: for a path `d0 :: rest` (length at least 2, no repeated
devices) accepted by `setup_eject_chain`, the source `d0` loses exactly
one `available_balls`, the final target gains exactly one, every other
device's `available_balls` is unchanged, every hop before the final
target gains exactly one eject-queue entry, and every other device's
eject queue is unchanged. -/
theorem setup_eject_chain_effects (g : Graph) (cc : ChainConfig) (d0 : Nat)
    (rest : List Nat) (pc : Bool) (st st' : ChainState) (evs : List Event)
    (hrest : rest ≠ [])
    (hnodup : (d0 :: rest).Nodup)
    (hok : setup_eject_chain g cc d0 (d0 :: rest) pc st = Except.ok (st', evs)) :
    st'.available_balls d0 = st.available_balls d0 - 1 ∧
    st'.available_balls (rest.getLast hrest) =
      st.available_balls (rest.getLast hrest) + 1 ∧
    (∀ d, d ≠ d0 → d ≠ rest.getLast hrest →
      st'.available_balls d = st.available_balls d) ∧
    (∀ d ∈ (d0 :: rest).dropLast,
      (st'.eject_queue d).length = (st.eject_queue d).length + 1) ∧
    (∀ d, d ∉ (d0 :: rest).dropLast →
      (st'.eject_queue d).length = (st.eject_queue d).length) := by
  have hT : (d0 :: rest).getLast (List.cons_ne_nil d0 rest) =
      rest.getLast hrest := List.getLast_cons hrest
  have hd0T : d0 ≠ rest.getLast hrest := by
    intro hcontra
    exact (List.nodup_cons.mp hnodup).1 (hcontra ▸ List.getLast_mem hrest)
  simp only [setup_eject_chain] at hok
  split at hok
  · simp at hok
  · rw [if_neg (by simp)] at hok
    rename_i hpos
    cases hhop : setup_eject_chain_next_hop g cc d0 rest pc
        { st with available_balls := fun d =>
            if d = d0 then st.available_balls d - 1 else st.available_balls d } with
    | error e =>
      rw [hhop] at hok
      simp at hok
    | ok st2 =>
      rw [hhop] at hok
      simp only [Except.ok.injEq, Prod.mk.injEq] at hok
      obtain ⟨hst, hevs⟩ := hok
      subst hst
      have havail := setup_eject_chain_next_hop_available g cc rest d0 pc _ st2 hhop
      have hqlen := setup_eject_chain_next_hop_queue_len g cc rest d0 pc _ st2 hhop
      have hdl : (d0 :: rest).dropLast = d0 :: rest.dropLast := by
        cases rest with
        | nil => exact absurd rfl hrest
        | cons r rs => rfl
      refine ⟨?_, ?_, ?_, ?_, ?_⟩
      · simp [hT, havail, hd0T]
      · simp [hT, havail, Ne.symm hd0T]
      · intro d hd1 hd2
        simp [hT, havail, hd1, hd2]
      · intro d hd
        have hcount : (d0 :: rest.dropLast).count d = 1 := by
          rw [← hdl]
          exact List.count_eq_one_of_mem
            ((List.dropLast_sublist (d0 :: rest)).nodup hnodup) hd
        have := hqlen d
        simp only [hcount] at this
        exact this
      · intro d hd
        have hcount : (d0 :: rest.dropLast).count d = 0 := by
          rw [← hdl]
          exact List.count_eq_zero_of_not_mem hd
        have := hqlen d
        simp only [hcount, Nat.add_zero] at this
        exact this

/-- Witness for claim C5 on the three-device chain 0 → 1 → 2 of spec
scenario 6: device 0's available ball count drops from 1 to 0, device 2's
rises from 0 to 1, device 1's is unchanged, and devices 0 and 1 each gain
one eject-queue entry. -/
theorem setup_eject_chain_effects_witness :
    setup_eject_chain gChainDemo ccDemo 0 [0, 1, 2] false stDemo =
        Except.ok (chainDemoResult, [Event.balls_available]) ∧
      chainDemoResult.available_balls 0 = stDemo.available_balls 0 - 1 ∧
      chainDemoResult.available_balls 2 = stDemo.available_balls 2 + 1 ∧
      chainDemoResult.available_balls 1 = stDemo.available_balls 1 ∧
      (chainDemoResult.eject_queue 0).length = (stDemo.eject_queue 0).length + 1 ∧
      (chainDemoResult.eject_queue 1).length = (stDemo.eject_queue 1).length + 1 := by
  have hok : setup_eject_chain gChainDemo ccDemo 0 [0, 1, 2] false stDemo =
      Except.ok (chainDemoResult, [Event.balls_available]) := rfl
  have h := setup_eject_chain_effects gChainDemo ccDemo 0 [1, 2] false stDemo
    chainDemoResult [Event.balls_available] (by decide) (by decide) hok
  exact ⟨hok, h.1, h.2.1, h.2.2.1 1 (by decide) (by decide),
    h.2.2.2.1 0 (by decide), h.2.2.2.1 1 (by decide)⟩

/-- Helper: a successful `List.findSome?` comes from some list element on
which the function succeeds. -/
theorem list_findSome_eq_some {α β : Type} (f : α → Option β) (l : List α)
    (b : β) (h : l.findSome? f = some b) : ∃ a, a ∈ l ∧ f a = some b := by
  induction l with
  | nil => simp [List.findSome?] at h
  | cons x xs ih =>
    rw [List.findSome?] at h
    cases hx : f x with
    | some v =>
      rw [hx] at h
      exact ⟨x, List.mem_cons_self x xs, by simpa [hx] using h⟩
    | none =>
      rw [hx] at h
      obtain ⟨a, ha, hfa⟩ := ih h
      exact ⟨a, List.mem_cons_of_mem x ha, hfa⟩

/-- Claim C6 counterexample: on the graph where device 0 ejects to
devices 1 then 2 and device 1 ejects to device 2, a left-to-right
depth-first search reaching device 2 from device 0 first finds the path
through device 1 (the spec-modelled `find_path_spec_dfs` returns
`[0, 1, 2]`), but the source's `find_path_to_target` checks for a direct
edge before recursing and returns `[0, 2]`, so it is not the first path
found by the claimed left-to-right DFS. -/
theorem find_path_to_target_not_dfs_order :
    find_path_to_target gDirectEdge 5 0 2 = some [0, 2] ∧
      find_path_spec_dfs gDirectEdge 5 0 2 = some [0, 1, 2] ∧
      find_path_to_target gDirectEdge 5 0 2 ≠
        find_path_spec_dfs gDirectEdge 5 0 2 :=
  ⟨rfl, rfl, by decide⟩

/-- Claim C6 (amended): every path returned by `find_path_to_target` is a
genuine path: it has at least two devices, starts at the device, ends at
the target, follows declared `eject_targets` edges, and never passes
through a playfield as an intermediate hop; when the target is directly
among the device's eject targets the result is exactly the two-device
direct path (direct edges take priority over depth-first exploration);
and `none` is returned only by exhausting the search, so whenever no
path exists the result is empty. -/
theorem find_path_to_target_sound :
    ∀ (g : Graph) (fuel self target : Nat) (p : List Nat),
      find_path_to_target g fuel self target = some p →
      2 ≤ p.length ∧
      p.head? = some self ∧
      p.getLast? = some target ∧
      List.Chain' (fun a b => b ∈ g.eject_targets a) p ∧
      (∀ d ∈ (p.drop 1).dropLast, g.is_playfield d = false) ∧
      (target ∈ g.eject_targets self → p = [self, target]) := by
  intro g fuel
  induction fuel with
  | zero =>
    intro self target p h
    simp [find_path_to_target] at h
  | succ f ih =>
    intro self target p h
    rw [find_path_to_target] at h
    by_cases hmem : target ∈ g.eject_targets self
    · rw [if_pos hmem] at h
      cases h
      refine ⟨by simp, rfl, rfl, ?_, by simp, fun _ => rfl⟩
      simp [List.chain'_cons, hmem]
    · rw [if_neg hmem] at h
      cases hfs : (g.eject_targets self).findSome?
          (fun d => if g.is_playfield d then none
                    else find_path_to_target g f d target) with
      | none => rw [hfs] at h; simp at h
      | some q =>
        rw [hfs] at h
        simp only [Option.some.injEq] at h
        subst h
        obtain ⟨d, hd, hfd⟩ := list_findSome_eq_some _ _ _ hfs
        have hpf : g.is_playfield d = false := by
          by_contra hc
          simp only [Bool.not_eq_false] at hc
          simp [hc] at hfd
        rw [if_neg (by simp [hpf])] at hfd
        obtain ⟨hlen, hhead, hlast, hchain, hinter, _⟩ := ih d target q hfd
        obtain ⟨qh, qt, rfl⟩ : ∃ qh qt, q = qh :: qt := by
          cases q with
          | nil => simp at hlen
          | cons qh qt => exact ⟨qh, qt, rfl⟩
        have hqh : qh = d := by simpa using hhead
        subst hqh
        obtain ⟨q2, qt2, rfl⟩ : ∃ q2 qt2, qt = q2 :: qt2 := by
          cases qt with
          | nil => simp at hlen
          | cons q2 qt2 => exact ⟨q2, qt2, rfl⟩
        refine ⟨by simp, rfl, by simpa using hlast, ?_, ?_, fun hc => absurd hc hmem⟩
        · exact List.chain'_cons.mpr ⟨hd, hchain⟩
        · intro x hx
          simp only [List.drop_one, List.tail_cons] at hx ⊢
          rw [List.dropLast_cons₂] at hx
          rcases List.mem_cons.mp hx with hx | hx
          · subst hx; exact hpf
          · exact hinter x (by simpa using hx)

/-- Witness for claim C6 (amended) on the chain 0 → 1 → 2: the returned
path `[0, 1, 2]` starts at the device, ends at the target and follows
the eject-target edges. -/
theorem find_path_to_target_sound_witness :
    find_path_to_target gChainDemo 5 0 2 = some [0, 1, 2] ∧
      ([0, 1, 2] : List Nat).head? = some 0 ∧
      ([0, 1, 2] : List Nat).getLast? = some 2 ∧
      List.Chain' (fun a b => b ∈ gChainDemo.eject_targets a) [0, 1, 2] := by
  have h := find_path_to_target_sound gChainDemo 5 0 2 [0, 1, 2] rfl
  exact ⟨rfl, h.2.1, h.2.2.1, h.2.2.2.1⟩

/-- Claim C9 counterexample: on the graph where device 0 ejects to
device 1 then to trough-tagged device 2, and device 1 ejects to
trough-tagged device 3, the nearest reachable trough from device 0 is
its direct eject target 2, yet `find_next_trough` explores the eject
targets depth first and returns device 3, which is neither device 0
itself nor one of its direct eject targets — so the function does not
return the nearest trough. -/
theorem find_next_trough_not_nearest :
    find_next_trough gTroughDfs 10 0 = some 3 ∧
      "trough" ∈ gTroughDfs.tags 2 ∧
      2 ∈ gTroughDfs.eject_targets 0 ∧
      "trough" ∉ gTroughDfs.tags 0 ∧
      3 ∉ gTroughDfs.eject_targets 0 ∧
      (3 : Nat) ≠ 0 :=
  ⟨rfl, by decide, by decide, by decide, by decide, by decide⟩

/-- Claim C9 (amended): `find_next_trough` returns a trough-tagged device
reachable from the device along eject-target edges that never pass
through a playfield (the device itself, with priority, when it carries
the trough tag), and returns an empty result only when its depth-first
search finds no trough. -/
theorem find_next_trough_sound :
    ∀ (g : Graph) (fuel self t : Nat),
      find_next_trough g fuel self = some t →
      "trough" ∈ g.tags t ∧ ReachesNP g self t ∧
      ("trough" ∈ g.tags self → t = self) := by
  intro g fuel
  induction fuel with
  | zero =>
    intro self t h
    simp [find_next_trough] at h
  | succ f ih =>
    intro self t h
    rw [find_next_trough] at h
    by_cases hmem : "trough" ∈ g.tags self
    · rw [if_pos hmem] at h
      cases h
      exact ⟨hmem, ReachesNP.refl self, fun _ => rfl⟩
    · rw [if_neg hmem] at h
      obtain ⟨d, hd, hfd⟩ := list_findSome_eq_some _ _ _ h
      have hpf : g.is_playfield d = false := by
        by_contra hc
        simp only [Bool.not_eq_false] at hc
        simp [hc] at hfd
      rw [if_neg (by simp [hpf])] at hfd
      obtain ⟨htag, hreach, _⟩ := ih d t hfd
      exact ⟨htag, ReachesNP.step self d t hd hpf hreach,
        fun hc => absurd hc hmem⟩

/-- Witness for claim C9 (amended) on the trough graph: the returned
device 3 is trough-tagged and reachable from device 0 without crossing a
playfield. -/
theorem find_next_trough_sound_witness :
    find_next_trough gTroughDfs 10 0 = some 3 ∧
      "trough" ∈ gTroughDfs.tags 3 ∧ ReachesNP gTroughDfs 0 3 := by
  have h := find_next_trough_sound gTroughDfs 10 0 3 rfl
  exact ⟨rfl, h.1, h.2.1⟩

/-- Helper invariant for `find_one_available_ball`: called with a
duplicate-free accumulated path, a successful search extends the path at
the front (so `self :: path` is a suffix of the result), returns a
duplicate-free path, and the head of the result has an available ball. -/
theorem find_one_available_ball_invariant (g : Graph) :
    ∀ (fuel self : Nat) (path p : List Nat),
      path.Nodup →
      find_one_available_ball g fuel self path = some p →
      (∃ q, p = q ++ self :: path) ∧ p.Nodup ∧
      (∀ h0, p.head? = some h0 → 0 < g.available_balls h0) := by
  intro fuel
  induction fuel with
  | zero =>
    intro self path p hnod h
    simp [find_one_available_ball] at h
  | succ f ih =>
    intro self path p hnod h
    rw [find_one_available_ball] at h
    by_cases hself : self ∈ path
    · rw [if_pos hself] at h
      simp at h
    · rw [if_neg hself] at h
      have hnod2 : (self :: path).Nodup := List.nodup_cons.mpr ⟨hself, hnod⟩
      by_cases hav : 0 < g.available_balls self ∧ 1 < (self :: path).length
      · rw [if_pos hav] at h
        cases h
        refine ⟨⟨[], rfl⟩, hnod2, ?_⟩
        intro h0 hh0
        simp only [List.head?_cons, Option.some.injEq] at hh0
        subst hh0
        exact hav.1
      · rw [if_neg hav] at h
        obtain ⟨s, hs, hfs⟩ := list_findSome_eq_some _ _ _ h
        obtain ⟨⟨q, hq⟩, hnodp, hhead⟩ := ih s (self :: path) p hnod2 hfs
        exact ⟨⟨q ++ [s], by simpa using hq⟩, hnodp, hhead⟩

/-- Claim C7: whenever `find_one_available_ball` called by the requester
(with the empty initial path) returns a path, that path has no repeated
device, the requester appears exactly once and is the last element, and
the first device on the path has a strictly positive `available_balls`. -/
theorem find_one_available_ball_requester_last :
    ∀ (g : Graph) (fuel requester : Nat) (p : List Nat),
      find_one_available_ball g fuel requester [] = some p →
      p.Nodup ∧ p.getLast? = some requester ∧ p.count requester = 1 ∧
      (∀ h0, p.head? = some h0 → 0 < g.available_balls h0) := by
  intro g fuel requester p h
  obtain ⟨⟨q, hq⟩, hnodp, hhead⟩ :=
    find_one_available_ball_invariant g fuel requester [] p List.nodup_nil h
  subst hq
  refine ⟨hnodp, ?_, ?_, hhead⟩
  · exact List.getLast?_concat q
  · exact List.count_eq_one_of_mem hnodp
      (List.mem_append_right q (List.mem_singleton.mpr rfl))

/-- Witness for claim C7 on the chain 0 → 1 → 2 with one available ball
at device 0: requesting from device 2 yields the path `[0, 1, 2]`, which
is duplicate-free, ends at the requester and starts at a device holding
an available ball. -/
theorem find_one_available_ball_requester_last_witness :
    find_one_available_ball gChainDemo 5 2 [] = some [0, 1, 2] ∧
      ([0, 1, 2] : List Nat).Nodup ∧
      ([0, 1, 2] : List Nat).getLast? = some 2 ∧
      0 < gChainDemo.available_balls 0 := by
  have h := find_one_available_ball_requester_last gChainDemo 5 2 [0, 1, 2] rfl
  exact ⟨rfl, h.1, h.2.1, h.2.2.2 0 rfl⟩

end BallDevicePy
